import Mathlib

/-!
Verification development for the ensemble-compute orchestration layer
(port allocator, LSF-style batch driver, ensemble-evaluator context
manager). Definitions are shallow embeddings of the repository's code;
where the implementation module itself is absent from the source tree
and only its unit tests are present, the definition is modelled from the
specification and pinned by the behaviour the tests assert.
-/

namespace ErtSpec

/-! ## Port allocator (ert.shared.net_utils) -/

/-- Address families as selected by get_family. -/
inductive AddressFamily
  | afInet
  | afInet6
deriving DecidableEq, Repr

/-- Splitting a host string (as a character list) on the colon character,
mirroring str.split on a single-character separator: the result always has
one more group than there are colons, empty groups included. -/
def splitOnColon : List Char → List (List Char)
  | [] => [[]]
  | c :: cs =>
    if c = ':' then [] :: splitOnColon cs
    else
      match splitOnColon cs with
      | [] => [[c]]
      | g :: gs => (c :: g) :: gs

/-- Hexadecimal digit test for IPv6 groups. -/
def isHexDigit (c : Char) : Bool :=
  c.isDigit || (decide ('a' ≤ c) && decide (c ≤ 'f')) || (decide ('A' ≤ c) && decide (c ≤ 'F'))

/-- Whether the host string contains a colon character. -/
def containsColon (h : List Char) : Bool :=
  h.any (fun c => decide (c = ':'))

/-- Modelled from the spec: validity of an IPv6 textual literal, the check
performed by inet_pton(AF_INET6, host) inside get_family of
ert.shared.net_utils, whose implementation module is absent from the
source tree. Groups of one to four hex digits separated by colons: eight
groups without compression, or fewer with a single double-colon
compression at the start, the end, in the middle, or the bare double
colon itself. IPv4-embedded tails are not modelled; none of the
behaviour pinned by the unit tests involves them. -/
def isValidIPv6 (h : List Char) : Bool :=
  let parts := splitOnColon h
  let n := parts.length
  let empties := (List.range n).filter (fun i => (parts.getD i ['x']).isEmpty)
  parts.all (fun g => g.isEmpty || (decide (g.length ≤ 4) && g.all isHexDigit))
    && (match empties with
        | [] => decide (n = 8)
        | [i] => decide (0 < i) && decide (i + 1 < n) && decide (n ≤ 8)
        | [i, j] =>
            (decide (i = 0) && decide (j = 1) && decide (3 ≤ n) && decide (n ≤ 9))
            || (decide (i = n - 2) && decide (j = n - 1) && decide (3 ≤ n) && decide (n ≤ 9))
        | [i, j, k] => decide (i = 0) && decide (j = 1) && decide (k = 2) && decide (n = 3)
        | _ => false)

/-- Modelled from the spec: get_family of ert.shared.net_utils (module
absent from the source tree). The address family is AF_INET6 exactly when
the host parses as an IPv6 literal, AF_INET otherwise; the in-tree unit
test test_get_family pins get_family on a host of the form host:port to
AF_INET, so mere presence of a colon does not select AF_INET6. -/
def get_family (host : List Char) : AddressFamily :=
  if isValidIPv6 host then AddressFamily.afInet6 else AddressFamily.afInet

/-- Modelled from the spec: hostname validity as checked before any
socket call by find_available_socket (fails fast with
InvalidHostException). Hostnames and address literals consist of
alphanumerics, dots, colons and hyphens; an underscore, as in the
in-tree test's invalid host, is invalid. -/
def validHost (h : List Char) : Bool :=
  !h.isEmpty && h.all (fun c => c.isAlphanum || decide (c = '.') || decide (c = ':') || decide (c = '-'))

/-- State of one TCP port as relevant to binding on Linux: free, bound by
a live socket (recording whether the holder requested reuse mode and
whether any I/O ever happened on it), or in TIME_WAIT after a socket that
saw I/O was closed (recording the holder's reuse flag). -/
inductive PortStatus
  | free
  | live (holderReuse activated : Bool)
  | timeWait (holderReuse : Bool)
deriving DecidableEq, Repr

/-- Modelled from the spec: whether a bind attempt on a port in the given
state succeeds on Linux, as pinned by the in-tree port-handler unit
tests. A free port always binds; a port held by a live socket binds only
when the holder acquired it in reuse mode, never used it, and the
requester also asks for reuse mode; a TIME_WAIT port binds only when both
the former holder and the requester used reuse mode. -/
def bindSucceeds : PortStatus → Bool → Bool
  | PortStatus.free, _ => true
  | PortStatus.live hr act, req => hr && !act && req
  | PortStatus.timeWait hr, req => hr && req

/-- Closing a socket frees its port immediately when no I/O ever happened
on it, and otherwise leaves the port in TIME_WAIT. -/
def closeSocket : PortStatus → PortStatus
  | PortStatus.live hr act => if act then PortStatus.timeWait hr else PortStatus.free
  | s => s

/-- Typed errors of the port allocator: InvalidHostException and
NoPortsInRangeException of ert.shared.net_utils. -/
inductive NetErr
  | invalidHost
  | noPortsInRange
deriving DecidableEq, Repr

/-- Trying each candidate port in order: the first successful bind wins;
when every candidate fails, allocation fails with
NoPortsInRangeException. The second component records every port on
which a bind was attempted, in order. -/
def tryPorts (env : Nat → PortStatus) (reuse : Bool) : List Nat → Except NetErr Nat × List Nat
  | [] => (Except.error NetErr.noPortsInRange, [])
  | p :: ps =>
    if bindSucceeds (env p) reuse then (Except.ok p, [p])
    else ((tryPorts env reuse ps).1, p :: (tryPorts env reuse ps).2)

/-- Modelled from the spec: find_available_socket of ert.shared.net_utils
(module absent from the source tree), with the reuse flag standing for
will_close_then_reopen_socket. An invalid host fails fast with no bind
attempted. A range whose start equals its stop (an empty Python range,
the forced case of the in-tree unit test, which asserts that the
returned port equals the range's start) performs exactly one bind, on
the start itself. Otherwise each candidate in the half-open range is
tried in order. The result pairs the allocation outcome with the list of
ports on which a bind was attempted. -/
def find_available_socket (host : List Char) (env : Nat → PortStatus)
    (start stop : Nat) (reuse : Bool) : Except NetErr Nat × List Nat :=
  if validHost host = false then (Except.error NetErr.invalidHost, [])
  else if start = stop then
    if bindSucceeds (env start) reuse then (Except.ok start, [start])
    else (Except.error NetErr.noPortsInRange, [start])
  else tryPorts env reuse (List.range' start (stop - start))

/-- Host literal 127.0.0.1 used throughout the in-tree port tests. -/
def ip127 : List Char := ['1', '2', '7', '.', '0', '.', '0', '.', '1']

/-- Host literal of the form host:port from the in-tree get_family test. -/
def hostPortChars : List Char := ['h', 'o', 's', 't', ':', 'p', 'o', 'r', 't']

/-- Plain hostname without any colon, from the in-tree get_family test. -/
def hostOnlyChars : List Char := ['h', 'o', 's', 't']

/-- IPv6 loopback literal from the in-tree get_family test. -/
def colonColonOne : List Char := [':', ':', '1']

/-- Invalid hostname (underscore) from the in-tree invalid-host test. -/
def invalidHostChars : List Char :=
  ['i', 'n', 'v', 'a', 'l', 'i', 'd', '_', 'h', 'o', 's', 't']

/-! ## Port allocator lemmas -/

lemma splitOnColon_of_no_colon (h : List Char) (hc : containsColon h = false) :
    splitOnColon h = [h] := by
  induction h with
  | nil => rfl
  | cons c cs ih =>
    have hc' : (decide (c = ':') || containsColon cs) = false := hc
    rw [Bool.or_eq_false_iff] at hc'
    have h1 : ¬(c = ':') := by
      intro he
      rw [he] at hc'
      exact absurd hc'.1 (by decide)
    rw [splitOnColon, if_neg h1, ih hc'.2]

lemma isValidIPv6_of_no_colon (h : List Char) (hc : containsColon h = false) :
    isValidIPv6 h = false := by
  cases h with
  | nil => decide
  | cons c cs =>
    have hs := splitOnColon_of_no_colon (c :: cs) hc
    unfold isValidIPv6
    rw [hs]
    simp [List.range_succ]

lemma get_family_of_no_colon (h : List Char) (hc : containsColon h = false) :
    get_family h = AddressFamily.afInet := by
  simp [get_family, isValidIPv6_of_no_colon h hc]

lemma tryPorts_fst_ne_invalidHost (env : Nat → PortStatus) (reuse : Bool) :
    ∀ l : List Nat, (tryPorts env reuse l).1 ≠ Except.error NetErr.invalidHost := by
  intro l
  induction l with
  | nil => simp [tryPorts]
  | cons p ps ih =>
    by_cases hb : bindSucceeds (env p) reuse = true
    · simp [tryPorts, hb]
    · simp only [tryPorts, if_neg hb]
      exact ih

/-! ## Claims about the port allocator -/

/-- C5 counterexample: the host string host:port contains a colon, yet the
address-family selection returns AF_INET, contradicting the claim that a
colon always selects AF_INET6 (this is exactly what the in-tree unit test
test_get_family asserts). -/
theorem get_family_colon_criterion_counterexample :
    containsColon hostPortChars = true
    ∧ get_family hostPortChars = AddressFamily.afInet := by
  constructor
  · decide
  · decide

/-- C5 (amended): the address-family selection returns AF_INET6 only for
strings that parse as IPv6 literals — every such literal contains a colon,
and a host without any colon always gets AF_INET — but a colon-containing
string that is not an IPv6 literal gets AF_INET; the IPv6 loopback
literal ::1 gets AF_INET6. -/
theorem get_family_family_selection (h : List Char) :
    (get_family h = AddressFamily.afInet6 → containsColon h = true)
    ∧ (containsColon h = false → get_family h = AddressFamily.afInet)
    ∧ get_family colonColonOne = AddressFamily.afInet6 := by
  refine ⟨?_, fun hc => get_family_of_no_colon h hc, by decide⟩
  intro h6
  cases hcc : containsColon h with
  | true => rfl
  | false =>
    rw [get_family_of_no_colon h hcc] at h6
    exact absurd h6 (by decide)

/-- C5 witness: the colonless host gets AF_INET through the theorem. -/
theorem get_family_family_selection_witness :
    containsColon hostOnlyChars = false
    ∧ get_family hostOnlyChars = AddressFamily.afInet :=
  ⟨by decide, (get_family_family_selection hostOnlyChars).2.1 (by decide)⟩

/-- C8: an invalid host makes find_available_socket fail with the typed
InvalidHostException while attempting no bind at all (the attempted-bind
trace is empty), and a valid host never produces that error. -/
theorem invalid_host_fails_fast (host : List Char) (env : Nat → PortStatus)
    (start stop : Nat) (reuse : Bool) :
    (validHost host = false →
      find_available_socket host env start stop reuse
        = (Except.error NetErr.invalidHost, []))
    ∧ (validHost host = true →
      (find_available_socket host env start stop reuse).1
        ≠ Except.error NetErr.invalidHost) := by
  constructor
  · intro hv
    simp [find_available_socket, hv]
  · intro hv
    rw [find_available_socket, hv, if_neg (by decide : ¬(true = false))]
    by_cases hse : start = stop
    · rw [if_pos hse]
      by_cases hb : bindSucceeds (env start) reuse = true
      · rw [if_pos hb]
        simp
      · rw [if_neg hb]
        simp
    · rw [if_neg hse]
      exact tryPorts_fst_ne_invalidHost env reuse _

/-- C8 witness: the underscore host fails fast with no bind attempted and
the loopback address never sees the invalid-host error. -/
theorem invalid_host_fails_fast_witness :
    find_available_socket invalidHostChars (fun _ => PortStatus.free) 0 1 false
      = (Except.error NetErr.invalidHost, [])
    ∧ (find_available_socket ip127 (fun _ => PortStatus.free) 0 1 false).1
      ≠ Except.error NetErr.invalidHost :=
  ⟨(invalid_host_fails_fast invalidHostChars (fun _ => PortStatus.free) 0 1 false).1 (by decide),
   (invalid_host_fails_fast ip127 (fun _ => PortStatus.free) 0 1 false).2 (by decide)⟩

/-- C3 counterexample: on Linux, a single-port range whose port is held
by a live reuse-mode socket that never saw I/O is successfully
re-allocated by a reuse-mode request — the allocation returns the port
instead of failing with NoPortsInRangeException as the claim states for
every holder/requester mode combination. -/
theorem live_port_reuse_rebind_counterexample :
    (find_available_socket ip127 (fun _ => PortStatus.live true false) 5000 5001 true).1
      ≠ Except.error NetErr.noPortsInRange
    ∧ find_available_socket ip127 (fun _ => PortStatus.live true false) 5000 5001 true
      = (Except.ok 5000, [5000]) :=
  ⟨fun h => Except.noConfusion h, rfl⟩

/-- C3 (amended): requesting a single-port range whose port is bound by a
live socket fails with NoPortsInRangeException in every holder/requester
mode combination except the Linux special case of a reuse-mode holder
whose socket never saw I/O together with a reuse-mode requester; closing
a socket on which no I/O ever happened frees the port, and an allocation
of a free port immediately succeeds in either reuse mode. -/
theorem live_port_allocation (p : Nat) (hr act req : Bool)
    (h : (hr && !act && req) = false) :
    (find_available_socket ip127 (fun _ => PortStatus.live hr act) p (p + 1) req).1
      = Except.error NetErr.noPortsInRange
    ∧ closeSocket (PortStatus.live hr false) = PortStatus.free
    ∧ ∀ req2 : Bool,
        (find_available_socket ip127 (fun _ => PortStatus.free) p (p + 1) req2).1
          = Except.ok p := by
  have hv : validHost ip127 = true := by decide
  have hne : p ≠ p + 1 := Nat.ne_of_lt (Nat.lt_succ_self p)
  have hr1 : List.range' p (p + 1 - p) = [p] := by
    rw [Nat.add_sub_cancel_left, List.range'_one]
  refine ⟨?_, by simp [closeSocket], fun req2 => ?_⟩
  · simp only [find_available_socket, hv, if_neg hne, hr1]
    simp [tryPorts, bindSucceeds, h]
  · simp only [find_available_socket, hv, if_neg hne, hr1]
    simp [tryPorts, bindSucceeds]

/-- C3 witness: a default-mode holder of port 5000 blocks a default-mode
request, closing the unused socket frees the port, and allocations of the
free port succeed in both modes. -/
theorem live_port_allocation_witness :
    (find_available_socket ip127 (fun _ => PortStatus.live false false) 5000 (5000 + 1) false).1
      = Except.error NetErr.noPortsInRange
    ∧ closeSocket (PortStatus.live false false) = PortStatus.free
    ∧ ∀ req2 : Bool,
        (find_available_socket ip127 (fun _ => PortStatus.free) 5000 (5000 + 1) req2).1
          = Except.ok 5000 :=
  live_port_allocation 5000 false false false (by decide)

/-- C4 counterexample: with the empty candidate range from 5001 to 5001
and every port free, allocation performs its single bind attempt on port
5001 — the range's own bound — and returns that port; it does not bind
port 0 for an OS-chosen port (this is what the in-tree unit test
test_find_available_socket_forced asserts). -/
theorem empty_range_counterexample :
    find_available_socket ip127 (fun _ => PortStatus.free) 5001 5001 false
      = (Except.ok 5001, [5001])
    ∧ (find_available_socket ip127 (fun _ => PortStatus.free) 5001 5001 false).2 ≠ [0] := by
  refine ⟨rfl, ?_⟩
  decide

/-- C4 (amended): an empty candidate range (start equal to stop) leads to
exactly one bind attempt, on the range's start itself; on success the
returned socket's port is that start, and when the start port is
unavailable the allocation fails with NoPortsInRangeException. -/
theorem empty_range_forced_bind (host : List Char) (env : Nat → PortStatus)
    (p : Nat) (req : Bool) (hv : validHost host = true) :
    (find_available_socket host env p p req).2 = [p]
    ∧ (bindSucceeds (env p) req = true →
        (find_available_socket host env p p req).1 = Except.ok p)
    ∧ (bindSucceeds (env p) req = false →
        (find_available_socket host env p p req).1
          = Except.error NetErr.noPortsInRange) := by
  cases hb : bindSucceeds (env p) req with
  | true => simp [find_available_socket, hv, hb]
  | false => simp [find_available_socket, hv, hb]

/-- C4 witness: the forced single bind on the empty range 7000..7000 with
the port free returns port 7000. -/
theorem empty_range_forced_bind_witness :
    (find_available_socket ip127 (fun _ => PortStatus.free) 7000 7000 true).2 = [7000]
    ∧ (find_available_socket ip127 (fun _ => PortStatus.free) 7000 7000 true).1
      = Except.ok 7000 := by
  have h := empty_range_forced_bind ip127 (fun _ => PortStatus.free) 7000 true (by decide)
  exact ⟨h.1, h.2.1 rfl⟩

/-! ## LSF driver (ert.scheduler.lsf_driver) -/

/-- Job status as reported by the backend status query (bjobs): pending,
running, finished successfully, or finished as a failure (the backend
only exposes this binary success/failure outcome, not the raw exit
code). -/
inductive BackendStatus
  | pend
  | run
  | doneOk
  | exitFail
deriving DecidableEq, Repr

/-- Lifecycle phase the driver tracks for one submitted realization. -/
inductive Phase
  | pending
  | running
  | done
deriving DecidableEq, Repr

/-- Events the driver publishes on its event queue for one realization:
StartedEvent and FinishedEvent of ert.scheduler.event, the latter
carrying the observed returncode and the aborted flag. -/
inductive DriverEvent
  | started (iens : Nat)
  | finished (iens : Nat) (returncode : Nat) (aborted : Bool)
deriving DecidableEq, Repr

/-- Modelled from the spec: one translation step of the LSF driver's poll
loop (ert.scheduler.lsf_driver, module absent from the source tree) for a
single realization. A first running report emits StartedEvent; the first
terminal report emits FinishedEvent with returncode 0 and aborted false
on backend success and returncode 1 and aborted true on backend failure;
once terminal, further reports emit nothing. -/
def pollStep (iens : Nat) : Phase → BackendStatus → Phase × List DriverEvent
  | Phase.pending, BackendStatus.pend => (Phase.pending, [])
  | Phase.pending, BackendStatus.run => (Phase.running, [DriverEvent.started iens])
  | Phase.pending, BackendStatus.doneOk => (Phase.done, [DriverEvent.finished iens 0 false])
  | Phase.pending, BackendStatus.exitFail => (Phase.done, [DriverEvent.finished iens 1 true])
  | Phase.running, BackendStatus.pend => (Phase.running, [])
  | Phase.running, BackendStatus.run => (Phase.running, [])
  | Phase.running, BackendStatus.doneOk => (Phase.done, [DriverEvent.finished iens 0 false])
  | Phase.running, BackendStatus.exitFail => (Phase.done, [DriverEvent.finished iens 1 true])
  | Phase.done, _ => (Phase.done, [])

/-- Events the poll loop emits for one realization over a finite sequence
of backend status reports, in order. -/
def pollTrace (iens : Nat) (ph : Phase) : List BackendStatus → List DriverEvent
  | [] => []
  | s :: ss => (pollStep iens ph s).2 ++ pollTrace iens (pollStep iens ph s).1 ss

/-- Returncode and aborted flag the driver attaches to the terminal event
for a given terminal backend status, if that status is terminal. -/
def terminalOutcome : BackendStatus → Option (Nat × Bool)
  | BackendStatus.doneOk => some (0, false)
  | BackendStatus.exitFail => some (1, true)
  | _ => none

/-- Modelled from the spec: the backend-visible outcome of a submitted
command exiting with a raw code — exit codes are 8-bit, so the backend
considers the job successful exactly when the raw code reduced modulo 256
is zero, and a failure otherwise; the raw code itself is not observable
through the status query. -/
def backendStatusOfExitCode (raw : Nat) : BackendStatus :=
  if raw % 256 = 0 then BackendStatus.doneOk else BackendStatus.exitFail

/-- Modelled from the spec: kill issues a backend cancel (bkill), after
which the status query reports the job as a failure, so the terminal
status a killed job reaches is the failure status. -/
def killTerminalStatus : BackendStatus := BackendStatus.exitFail

/-! ## Driver lemmas -/

lemma pollTrace_done (iens : Nat) :
    ∀ ss : List BackendStatus, pollTrace iens Phase.done ss = [] := by
  intro ss
  induction ss with
  | nil => rfl
  | cons s ss ih => simp [pollTrace, pollStep, ih]

lemma pollTrace_pending_of_pend (iens : Nat) (pre t : List BackendStatus)
    (hpre : ∀ s ∈ pre, s = BackendStatus.pend) :
    pollTrace iens Phase.pending (pre ++ t) = pollTrace iens Phase.pending t := by
  induction pre with
  | nil => rfl
  | cons s ss ih =>
    have hs : s = BackendStatus.pend := hpre s (by simp)
    rw [hs]
    show pollTrace iens Phase.pending (BackendStatus.pend :: (ss ++ t)) = _
    simp only [pollTrace, pollStep]
    rw [ih (fun x hx => hpre x (by simp [hx]))]
    rfl

lemma pollTrace_running_of_nonterminal (iens : Nat) (mid t : List BackendStatus)
    (hmid : ∀ s ∈ mid, s = BackendStatus.pend ∨ s = BackendStatus.run) :
    pollTrace iens Phase.running (mid ++ t) = pollTrace iens Phase.running t := by
  induction mid with
  | nil => rfl
  | cons s ss ih =>
    have htail := ih (fun x hx => hmid x (by simp [hx]))
    rcases hmid s (by simp) with hs | hs
    · rw [hs]
      show pollTrace iens Phase.running (BackendStatus.pend :: (ss ++ t)) = _
      simp only [pollTrace, pollStep]
      rw [htail]
      rfl
    · rw [hs]
      show pollTrace iens Phase.running (BackendStatus.run :: (ss ++ t)) = _
      simp only [pollTrace, pollStep]
      rw [htail]
      rfl

/-! ## Claims about the driver -/

/-- C1: for a submitted realization whose backend reports pending for a
while, then running, then — possibly after further pending/running
reports — a terminal status, the poll loop publishes exactly one
StartedEvent followed by exactly one terminal FinishedEvent carrying that
status's returncode and aborted flag, with no event of either kind before
or after, whatever further statuses the backend reports once the job is
terminal. -/
theorem driver_poll_started_then_finished (iens : Nat)
    (pre mid rest : List BackendStatus) (term : BackendStatus) (rc : Nat) (ab : Bool)
    (hpre : ∀ s ∈ pre, s = BackendStatus.pend)
    (hmid : ∀ s ∈ mid, s = BackendStatus.pend ∨ s = BackendStatus.run)
    (hterm : terminalOutcome term = some (rc, ab)) :
    pollTrace iens Phase.pending (pre ++ BackendStatus.run :: (mid ++ term :: rest))
      = [DriverEvent.started iens, DriverEvent.finished iens rc ab] := by
  rw [pollTrace_pending_of_pend iens pre _ hpre]
  show (pollStep iens Phase.pending BackendStatus.run).2
      ++ pollTrace iens (pollStep iens Phase.pending BackendStatus.run).1 (mid ++ term :: rest)
      = _
  simp only [pollStep]
  rw [pollTrace_running_of_nonterminal iens mid _ hmid]
  cases term with
  | pend => exact absurd hterm (by simp [terminalOutcome])
  | run => exact absurd hterm (by simp [terminalOutcome])
  | doneOk =>
    simp only [terminalOutcome, Option.some.injEq, Prod.mk.injEq] at hterm
    rw [← hterm.1, ← hterm.2]
    simp [pollTrace, pollStep, pollTrace_done]
  | exitFail =>
    simp only [terminalOutcome, Option.some.injEq, Prod.mk.injEq] at hterm
    rw [← hterm.1, ← hterm.2]
    simp [pollTrace, pollStep, pollTrace_done]

/-- C1 witness: a concrete lifecycle pending, running, success produces
exactly the two events in order. -/
theorem driver_poll_started_then_finished_witness :
    pollTrace 0 Phase.pending
        ([BackendStatus.pend] ++ BackendStatus.run :: ([] ++ BackendStatus.doneOk :: []))
      = [DriverEvent.started 0, DriverEvent.finished 0 0 false] :=
  driver_poll_started_then_finished 0 [BackendStatus.pend] [] [] BackendStatus.doneOk 0 false
    (by decide) (by decide) rfl

/-- C2: the returncode and aborted flag observed through FinishedEvent
depend only on whether the raw exit code of the submitted command
reduced modulo 256 is zero — a non-zero backend-visible outcome yields
returncode 1 with aborted true and a zero one yields returncode 0 with
aborted false (so raw codes 0 and 256 map to returncode 0, and 1, 2 and
255 map to returncode 1). -/
theorem driver_masks_returncode (iens raw : Nat) :
    pollTrace iens Phase.pending [BackendStatus.run, backendStatusOfExitCode raw]
      = [DriverEvent.started iens,
         DriverEvent.finished iens (if raw % 256 = 0 then 0 else 1)
           (if raw % 256 = 0 then false else true)] := by
  by_cases h : raw % 256 = 0
  · simp [backendStatusOfExitCode, h, pollTrace, pollStep]
  · simp [backendStatusOfExitCode, h, pollTrace, pollStep]

/-- C7: a realization killed after it started — the backend's status
query thereafter reporting the cancel as a failure — still gets exactly
one terminal FinishedEvent, carrying aborted true (and returncode 1),
after its single StartedEvent; it is never left without a terminal
event. -/
theorem driver_kill_emits_aborted_finished (iens : Nat)
    (pre mid rest : List BackendStatus)
    (hpre : ∀ s ∈ pre, s = BackendStatus.pend)
    (hmid : ∀ s ∈ mid, s = BackendStatus.pend ∨ s = BackendStatus.run) :
    pollTrace iens Phase.pending (pre ++ BackendStatus.run :: (mid ++ killTerminalStatus :: rest))
      = [DriverEvent.started iens, DriverEvent.finished iens 1 true] := by
  rw [pollTrace_pending_of_pend iens pre _ hpre]
  show (pollStep iens Phase.pending BackendStatus.run).2
      ++ pollTrace iens (pollStep iens Phase.pending BackendStatus.run).1
          (mid ++ killTerminalStatus :: rest)
      = _
  simp only [pollStep]
  rw [pollTrace_running_of_nonterminal iens mid _ hmid]
  simp [killTerminalStatus, pollTrace, pollStep, pollTrace_done]

/-- C7 witness: a job killed right after starting produces the started
event then the aborted terminal event. -/
theorem driver_kill_emits_aborted_finished_witness :
    pollTrace 0 Phase.pending
        ([] ++ BackendStatus.run :: ([BackendStatus.run] ++ killTerminalStatus :: [BackendStatus.exitFail]))
      = [DriverEvent.started 0, DriverEvent.finished 0 1 true] :=
  driver_kill_emits_aborted_finished 0 [] [BackendStatus.run] [BackendStatus.exitFail]
    (by decide) (by decide)

/-- Key under which the job id is recorded in the metadata file. -/
def jobIdKey : List Char := ['j', 'o', 'b', '_', 'i', 'd']

/-- Name of the metadata file the driver writes into the runpath. -/
def lsfInfoFileName : List Char :=
  ['l', 's', 'f', '_', 'i', 'n', 'f', 'o', '.', 'j', 's', 'o', 'n']

/-- Modelled from the spec: the files written by LsfDriver.submit
(ert.scheduler.lsf_driver, module absent from the source tree), each as a
path paired with a record of key/value pairs. When a runpath is supplied
the driver writes lsf_info.json under it, holding exactly the job-id
key mapped to the backend job id; with no runpath nothing is written. -/
def submitMetadataFiles (runpath : Option (List Char)) (jobId : List Char) :
    List (List Char × List (List Char × List Char)) :=
  match runpath with
  | some p => [(p ++ '/' :: lsfInfoFileName, [(jobIdKey, jobId)])]
  | none => []

/-- C9: when a runpath is supplied, submission writes exactly one
metadata file, under that runpath, whose record's keys are exactly the
job-id key; when no runpath is supplied no file is written. -/
theorem submit_metadata_file (runpath : Option (List Char)) (jobId : List Char) :
    (∀ p, runpath = some p →
      submitMetadataFiles runpath jobId
          = [(p ++ '/' :: lsfInfoFileName, [(jobIdKey, jobId)])]
      ∧ (submitMetadataFiles runpath jobId).map (fun f => f.2.map Prod.fst)
          = [[jobIdKey]])
    ∧ (runpath = none → submitMetadataFiles runpath jobId = []) := by
  constructor
  · intro p hp
    rw [hp]
    exact ⟨rfl, rfl⟩
  · intro hp
    rw [hp]
    rfl

/-- C9 witness: a concrete submission with a runpath writes the one
metadata file with exactly the job-id key, and one without writes
nothing. -/
theorem submit_metadata_file_witness :
    (submitMetadataFiles (some ['r']) ['5']).map (fun f => f.2.map Prod.fst) = [[jobIdKey]]
    ∧ submitMetadataFiles none ['5'] = [] :=
  ⟨((submit_metadata_file (some ['r']) ['5']).1 ['r'] rfl).2,
   (submit_metadata_file none ['5']).2 rfl⟩

/-! ## Orchestration context (ert_shared.ensemble_evaluator.context_manager) -/

/-- Resources the attach context manager creates and tears down: the
ensemble evaluator (started by ee.run), the dispatch thread tailing the
legacy event logs, and the monkey-patch of the legacy queue manager. -/
inductive Resource
  | evaluator
  | dispatchThread
  | patcher
deriving DecidableEq, Repr

/-- Observable steps of the attach context manager, in the order the
source performs them; run paths are identified by a natural number
index. -/
inductive Action
  | createEnsemble
  | startEvaluator
  | waitWs
  | removeLog (path : Nat)
  | startDispatch
  | startPatcher
  | runBody
  | joinDispatch
  | stopPatcher
  | stopEvaluator
deriving DecidableEq, Repr

/-- Trace of the attach generator of context_manager.py for a session
over the given run paths: build the ensemble, start the evaluator, wait
for its websocket, delete every pre-existing event_log file, start the
dispatch thread, start the monkey-patch, then yield to the with-body;
because the yield is not wrapped in try/finally, the join/stop teardown
steps run only when the body returns normally (bodyOk), and are skipped
when it raises. The existing predicate says which event_log files are
present on disk. -/
def attachTrace (paths : List Nat) (existing : Nat → Bool) (bodyOk : Bool) : List Action :=
  [Action.createEnsemble, Action.startEvaluator, Action.waitWs]
    ++ ((paths.filter existing).map Action.removeLog
      ++ ([Action.startDispatch, Action.startPatcher, Action.runBody]
        ++ (if bodyOk then [Action.joinDispatch, Action.stopPatcher, Action.stopEvaluator]
            else [])))

/-- Which resource an action creates, if any. -/
def creationResource : Action → Option Resource
  | Action.startEvaluator => some Resource.evaluator
  | Action.startDispatch => some Resource.dispatchThread
  | Action.startPatcher => some Resource.patcher
  | _ => none

/-- Which resource an action tears down, if any. -/
def teardownResource : Action → Option Resource
  | Action.joinDispatch => some Resource.dispatchThread
  | Action.stopPatcher => some Resource.patcher
  | Action.stopEvaluator => some Resource.evaluator
  | _ => none

/-- Whether an action is anything other than the dispatch-thread start. -/
def notDispatchStart : Action → Bool
  | Action.startDispatch => false
  | _ => true

/-- Actions that precede the start of the dispatch thread in a trace. -/
def beforeDispatchStart (tr : List Action) : List Action :=
  tr.takeWhile notDispatchStart

/-! ## Context-manager lemmas -/

lemma filterMap_map_removeLog (f : Action → Option Resource)
    (hf : ∀ p, f (Action.removeLog p) = none) (l : List Nat) :
    (l.map Action.removeLog).filterMap f = [] := by
  induction l with
  | nil => rfl
  | cons p ps ih => simp [List.filterMap_cons, hf, ih]

lemma takeWhile_append_of_all {α : Type} (p : α → Bool) (l1 l2 : List α)
    (h : ∀ a ∈ l1, p a = true) :
    (l1 ++ l2).takeWhile p = l1 ++ l2.takeWhile p := by
  induction l1 with
  | nil => rfl
  | cons a l ih =>
    have ha : p a = true := h a (by simp)
    simp only [List.cons_append, List.takeWhile_cons, ha, if_pos]
    rw [ih (fun x hx => h x (by simp [hx]))]

lemma beforeDispatchStart_attachTrace (paths : List Nat) (existing : Nat → Bool)
    (bodyOk : Bool) :
    beforeDispatchStart (attachTrace paths existing bodyOk)
      = [Action.createEnsemble, Action.startEvaluator, Action.waitWs]
        ++ (paths.filter existing).map Action.removeLog := by
  unfold beforeDispatchStart attachTrace
  rw [takeWhile_append_of_all notDispatchStart
    [Action.createEnsemble, Action.startEvaluator, Action.waitWs] _ (by decide)]
  congr 1
  rw [takeWhile_append_of_all notDispatchStart
    ((paths.filter existing).map Action.removeLog) _ (by
      intro a ha
      obtain ⟨q, hq, rfl⟩ := List.mem_map.mp ha
      rfl)]
  simp [List.cons_append, List.takeWhile_cons, notDispatchStart]

/-! ## Claims about the orchestration context -/

/-- C6 counterexample: the resources torn down on the normal path, in
teardown order, are the dispatch thread, then the patcher, then the
evaluator — not the reverse of the creation order (evaluator, dispatch
thread, patcher): the dispatch thread is started before the patcher yet
also torn down before it. -/
theorem attach_teardown_not_reverse_counterexample :
    ¬ ((attachTrace [] (fun _ => false) true).filterMap teardownResource
        = ((attachTrace [] (fun _ => false) true).filterMap creationResource).reverse) := by
  decide

/-- C6 (amended): teardown runs only when the with-body completes without
raising — a body exception skips it entirely, since the yield is not
wrapped in try/finally — and its order is: join the dispatch thread,
stop the monkey-patch, stop the evaluator; relative to the creation
order (evaluator, dispatch thread, patcher) only the evaluator is torn
down in reverse position, while the dispatch thread is joined before the
patcher that was started after it is stopped. -/
theorem attach_teardown_order (paths : List Nat) (existing : Nat → Bool) (bodyOk : Bool) :
    (attachTrace paths existing bodyOk).filterMap creationResource
      = [Resource.evaluator, Resource.dispatchThread, Resource.patcher]
    ∧ (attachTrace paths existing bodyOk).filterMap teardownResource
      = (if bodyOk then [Resource.dispatchThread, Resource.patcher, Resource.evaluator]
         else []) := by
  have hc := filterMap_map_removeLog creationResource (fun _ => rfl) (paths.filter existing)
  have ht := filterMap_map_removeLog teardownResource (fun _ => rfl) (paths.filter existing)
  cases bodyOk with
  | true =>
    constructor
    · simp [attachTrace, List.filterMap_append, hc, List.filterMap_cons, creationResource]
    · simp [attachTrace, List.filterMap_append, ht, List.filterMap_cons, teardownResource]
  | false =>
    constructor
    · simp [attachTrace, List.filterMap_append, hc, List.filterMap_cons, creationResource]
    · simp [attachTrace, List.filterMap_append, ht, List.filterMap_cons, teardownResource]

/-- C10: every pre-existing event_log file of the session's run paths is
removed strictly before the dispatch thread that tails the legacy logs
is started — its removal action lies in the part of the trace that
precedes the dispatch-thread start. -/
theorem event_logs_removed_before_dispatch (paths : List Nat) (existing : Nat → Bool)
    (bodyOk : Bool) (p : Nat) (hp : p ∈ paths) (he : existing p = true) :
    Action.removeLog p ∈ beforeDispatchStart (attachTrace paths existing bodyOk)
    ∧ Action.startDispatch ∈ attachTrace paths existing bodyOk := by
  constructor
  · rw [beforeDispatchStart_attachTrace paths existing bodyOk]
    refine List.mem_append.mpr (Or.inr ?_)
    exact List.mem_map.mpr ⟨p, List.mem_filter.mpr ⟨hp, he⟩, rfl⟩
  · simp [attachTrace]

/-- C10 witness: with one run path whose event_log exists, the removal
action precedes the dispatch-thread start in the concrete trace. -/
theorem event_logs_removed_before_dispatch_witness :
    Action.removeLog 3 ∈ beforeDispatchStart (attachTrace [3] (fun _ => true) true)
    ∧ Action.startDispatch ∈ attachTrace [3] (fun _ => true) true :=
  event_logs_removed_before_dispatch [3] (fun _ => true) true 3 (by decide) rfl

end ErtSpec
